import Mathlib

/-!
Shallow embedding of the wavepad world simulation
(src/solution1/js/wavepad.js).

JS numbers are modelled as rationals (ℚ): every value the game computes
stays an integer-valued rational, and `isFinite` holds of every rational,
so the non-finite branches of the constructors are unreachable inside the
model (they are noted where they occur).  `Math.round x` is modelled as
`⌊x + 1/2⌋` (round half toward positive infinity), the ECMAScript
semantics on finite arguments.
-/

namespace Wavepad

/-- ECMAScript Math.round on a finite argument: floor of (x + 1/2). -/
def jsRound (q : ℚ) : ℤ := ⌊q + 1/2⌋

/-- Which prototype a body was built from; only the gradient methods are
dispatched on it (Paddle overrides both gradients, everything else keeps
the WorldObject default of 0).  `plain` is a bare WorldObject. -/
inductive BodyKind
  | plain
  | ball
  | paddle
  | wall
  | goal
  deriving DecidableEq, Repr

/-- State of a WorldObject: center position (x, y), extents (xLen, yLen),
velocity (dx, dy) and the (unused by the simulation) extent rates
(dxLen, dyLen), plus the prototype tag used for gradient dispatch. -/
structure WorldObject where
  kind : BodyKind
  x : ℚ
  y : ℚ
  xLen : ℚ
  yLen : ℚ
  dx : ℚ
  dy : ℚ
  dxLen : ℚ
  dyLen : ℚ
  deriving DecidableEq, Repr

namespace WorldObject

/-- Minimum position in x: Math.round(x - 0.5 * xLen). -/
def xMin (b : WorldObject) : ℤ := jsRound (b.x - (1/2) * b.xLen)

/-- Maximum position in x: Math.round(x + 0.5 * xLen). -/
def xMax (b : WorldObject) : ℤ := jsRound (b.x + (1/2) * b.xLen)

/-- Minimum position in y: Math.round(y - 0.5 * yLen). -/
def yMin (b : WorldObject) : ℤ := jsRound (b.y - (1/2) * b.yLen)

/-- Maximum position in y: Math.round(y + 0.5 * yLen). -/
def yMax (b : WorldObject) : ℤ := jsRound (b.y + (1/2) * b.yLen)

/-- WorldObject.prototype.touches: simultaneous x and y overlap of the
projections of both objects (receiver `b` is the JS `this`). -/
def touches (b obj : WorldObject) : Bool :=
  (decide (obj.xMax ≥ b.xMin) && decide (obj.xMin ≤ b.xMax))
    && (decide (obj.yMax ≥ b.yMin) && decide (obj.yMin ≤ b.yMax))

/-- Surface slope in x around (x, y): 0 for every prototype except Paddle,
which returns its own dx (Paddle.prototype.xGradientAt). -/
def xGradientAt (s : WorldObject) (_px _py : ℚ) : ℚ :=
  match s.kind with
  | .paddle => s.dx
  | _ => 0

/-- Surface slope in y around (x, y): 0 for every prototype except Paddle,
which returns its own dx (Paddle.prototype.yGradientAt). -/
def yGradientAt (s : WorldObject) (_px _py : ℚ) : ℚ :=
  match s.kind with
  | .paddle => s.dx
  | _ => 0

/-- One iteration of the loop body of WorldObject.prototype.horizontalBounce
for a single surface: if touching, reverse dx when moving toward the
surface, then subtract the surface's x-gradient at this.y from dy. -/
def hBounceStep (b s : WorldObject) : WorldObject :=
  if touches b s then
    let b1 := if (b.x ≤ s.x ∧ b.dx ≥ 0) ∨ (b.x > s.x ∧ b.dx ≤ 0) then
        { b with dx := -1 * b.dx }
      else b
    { b1 with dy := b1.dy - xGradientAt s b1.y 0 }
  else b

/-- WorldObject.prototype.horizontalBounce over a list of surfaces,
applied in list order. -/
def horizontalBounce (b : WorldObject) (surfaces : List WorldObject) : WorldObject :=
  surfaces.foldl hBounceStep b

/-- One iteration of the loop body of WorldObject.prototype.verticalBounce
for a single surface: if touching, reverse dy when moving toward the
surface, then subtract the surface's y-gradient at this.x from dx. -/
def vBounceStep (b s : WorldObject) : WorldObject :=
  if touches b s then
    let b1 := if (b.y ≤ s.y ∧ b.dy ≥ 0) ∨ (b.y > s.y ∧ b.dy ≤ 0) then
        { b with dy := -1 * b.dy }
      else b
    { b1 with dx := b1.dx - yGradientAt s b1.x 0 }
  else b

/-- WorldObject.prototype.verticalBounce over a list of surfaces,
applied in list order. -/
def verticalBounce (b : WorldObject) (surfaces : List WorldObject) : WorldObject :=
  surfaces.foldl vBounceStep b

end WorldObject

/-- Reasons the WorldObject constructor throws.  The non-finite cases are
unreachable in the rational model (every ℚ is finite) but kept so that the
constructor's shape matches the source. -/
inductive CtorErr
  | xNotFinite
  | yNotFinite
  | xLenBad
  | yLenBad
  deriving DecidableEq, Repr

/-- The WorldObject constructor: validates the arguments (position must be
finite — always true of a rational — and each extent finite and ≥ 1),
rounds position and extents to integers, and zeroes the rates. -/
def mkWorldObject (kind : BodyKind) (x y xLen yLen : ℚ) : Except CtorErr WorldObject :=
  if ¬ (xLen ≥ 1) then .error .xLenBad
  else if ¬ (yLen ≥ 1) then .error .yLenBad
  else .ok {
    kind := kind
    x := (jsRound x : ℚ)
    y := (jsRound y : ℚ)
    xLen := (jsRound xLen : ℚ)
    yLen := (jsRound yLen : ℚ)
    dx := 0
    dy := 0
    dxLen := 0
    dyLen := 0 }

/-- A Ball is a WorldObject with a radius (extents are 2 * radius) and an
initial downward-in-raster, upward-in-world velocity dy = 3. -/
structure Ball extends WorldObject where
  radius : ℚ
  deriving DecidableEq, Repr

/-- The Ball constructor.  The radius argument is replaced by 1 unless it
is truthy (nonzero) and ≥ 1, in which case it is rounded; then the
WorldObject constructor runs with extents 2 * radius, the radius is
stored, and dy is set to 3. -/
def mkBall (x y radius : ℚ) : Except CtorErr Ball :=
  let r : ℤ := if radius ≠ 0 ∧ radius ≥ 1 then jsRound radius else 1
  (mkWorldObject .ball x y (2 * (r : ℚ)) (2 * (r : ℚ))).map fun w =>
    { toWorldObject := { w with dy := 3 }, radius := (r : ℚ) }

/-- The Paddle constructor.  Each extent argument is replaced by a default
(xLen 20, yLen 10) unless it is truthy (nonzero) and ≥ 1, in which case it
is rounded; then the WorldObject constructor runs. -/
def mkPaddle (x y xLen yLen : ℚ) : Except CtorErr WorldObject :=
  let xl : ℚ := if xLen ≠ 0 ∧ xLen ≥ 1 then ((jsRound xLen : ℤ) : ℚ) else 20
  let yl : ℚ := if yLen ≠ 0 ∧ yLen ≥ 1 then ((jsRound yLen : ℤ) : ℚ) else 10
  mkWorldObject .paddle x y xl yl

/-- Paddle.prototype.update: bounce horizontally on the world's vertical
surfaces, integrate x by dx, and zero dy. -/
def paddleUpdate (verticalSurfaces : List WorldObject) (b : WorldObject) : WorldObject :=
  let b1 := b.horizontalBounce verticalSurfaces
  { b1 with x := b1.x + b1.dx, dy := 0 }

/-- The LeftWall constructor delegates to WorldObject (its wavy-wall fields
t, f, a0, a, p, omega never influence behavior: its update body is
commented out in the source, so walls are inert). -/
def mkLeftWall (x y xLen yLen : ℚ) : Except CtorErr WorldObject :=
  mkWorldObject .wall x y xLen yLen

/-- The RightWall constructor delegates to WorldObject. -/
def mkRightWall (x y xLen yLen : ℚ) : Except CtorErr WorldObject :=
  mkWorldObject .wall x y xLen yLen

/-- A Goal is a WorldObject plus the list of balls it has caught. -/
structure Goal extends WorldObject where
  balls : List Ball
  deriving DecidableEq, Repr

/-- The Goal constructor: delegates to WorldObject and starts with an
empty caught-ball list (its player argument is ignored by the source). -/
def mkGoal (x y xLen yLen : ℚ) : Except CtorErr Goal :=
  (mkWorldObject .goal x y xLen yLen).map fun w =>
    { toWorldObject := w, balls := [] }

/-- Goal.prototype.countBalls. -/
def Goal.countBalls (g : Goal) : ℕ := g.balls.length

/-- World.prototype.removeBall: splice(index, 1) on the ball list. -/
def removeBall (balls : List Ball) (index : ℕ) : List Ball :=
  balls.eraseIdx index

/-- The indexed loop of Goal.prototype.catchBalls: scan world.balls from
index i upward; a ball touching the goal is pushed onto the goal's list
and removed from the world list (which shifts later balls down by one
while i still advances, exactly as the JS for-loop over the spliced
array does).  Returns the updated goal and remaining world ball list. -/
def Goal.catchBallsAux (g : Goal) (balls : List Ball) (i : ℕ) : Goal × List Ball :=
  if h : i < balls.length then
    let ball := balls.get ⟨i, h⟩
    if ball.toWorldObject.touches g.toWorldObject then
      Goal.catchBallsAux { g with balls := g.balls ++ [ball] } (removeBall balls i) (i + 1)
    else
      Goal.catchBallsAux g balls (i + 1)
  else (g, balls)
termination_by balls.length - i
decreasing_by
  · simp only [removeBall, List.length_eraseIdx, h, if_pos]
    omega
  · omega

/-- Goal.prototype.catchBalls, started at index 0 as in the source. -/
def Goal.catchBalls (g : Goal) (balls : List Ball) : Goal × List Ball :=
  Goal.catchBallsAux g balls 0

/-- A Player (or Computer, when isComputer is set): paddle body, goal,
movement keys, base human speed dx0 and computer speed cap maxDx. -/
structure Player where
  isComputer : Bool
  body : WorldObject
  goal : Goal
  moveLeftKey : Option ℕ
  moveRightKey : Option ℕ
  dx0 : ℚ
  maxDx : ℚ
  deriving DecidableEq, Repr

/-- The Player constructor: arrow keys 37/39, dx0 = 7.  maxDx is unused by
the human update but present on the prototype chain via Computer. -/
def mkPlayer (body : WorldObject) (goal : Goal) : Player :=
  { isComputer := false, body := body, goal := goal,
    moveLeftKey := some 37, moveRightKey := some 39, dx0 := 7, maxDx := 7 }

/-- The Computer constructor: a Player with no keys and maxDx = 7. -/
def mkComputer (body : WorldObject) (goal : Goal) : Player :=
  { isComputer := true, body := body, goal := goal,
    moveLeftKey := none, moveRightKey := none, dx0 := 7, maxDx := 7 }

/-- The for-in loop of Player.prototype.update over the held keys
(integer-like JS object keys enumerate in ascending numeric order, so the
key state is passed as the correspondingly ordered list): each held key
matching a movement key overwrites dx. -/
def playerComputeDx (p : Player) (keysDown : List ℕ) : ℚ :=
  keysDown.foldl (fun d k =>
    if some k = p.moveLeftKey then -1 * p.dx0
    else if some k = p.moveRightKey then p.dx0
    else d) 0

/-- Player.prototype.update: reset the body's velocity, set dx from held
keys, run the paddle update against the walls, then catch balls with the
player's goal.  The world's ball list is threaded through. -/
def Player.update (keysDown : List ℕ) (walls : List WorldObject)
    (p : Player) (balls : List Ball) : Player × List Ball :=
  let body0 := { p.body with dx := 0, dy := 0 }
  let body1 := { body0 with dx := playerComputeDx p keysDown }
  let body2 := paddleUpdate walls body1
  let gb := p.goal.catchBalls balls
  ({ p with body := body2, goal := gb.1 }, gb.2)

/-- Computer.prototype.update: track the first ball when it approaches
(ball.dy > 0) from beyond the tracking threshold; otherwise, when close,
touching and the ball has x speed, kick sideways; clamp dx to ±maxDx; run
the paddle update; force dy to 0; catch balls. -/
def Computer.update (walls : List WorldObject) (worldYLen : ℚ)
    (p : Player) (balls : List Ball) : Player × List Ball :=
  let body0 := p.body
  let body1 :=
    match balls with
    | [] => body0
    | ball :: _ =>
      let distanceToBall := body0.y - ball.y
      let minTrackingDistance : ℚ := ((jsRound ((2/10) * worldYLen) : ℤ) : ℚ)
      if ball.dy > 0 ∧ distanceToBall > minTrackingDistance then
        { body0 with dx := ball.x - body0.x }
      else if ball.dy > 0 ∧ |ball.dx| > 0 ∧ body0.touches ball.toWorldObject then
        let d : ℚ := ((jsRound ((6/10) * p.maxDx) : ℤ) : ℚ)
        { body0 with dx := if ball.dx > 0 then -1 * d else d }
      else body0
  let body2 :=
    if |body1.dx| > p.maxDx then
      { body1 with dx := if body1.dx > 0 then p.maxDx else -1 * p.maxDx }
    else body1
  let body3 := paddleUpdate walls body2
  let body4 := { body3 with dy := 0 }
  let gb := p.goal.catchBalls balls
  ({ p with body := body4, goal := gb.1 }, gb.2)

/-- Ball.prototype.update: bounce horizontally on the vertical surfaces
(walls), then vertically on the horizontal surfaces (paddle bodies), then
integrate position by velocity. -/
def Ball.update (verticalSurfaces horizontalSurfaces : List WorldObject)
    (b : Ball) : Ball :=
  let w1 := b.toWorldObject.horizontalBounce verticalSurfaces
  let w2 := w1.verticalBounce horizontalSurfaces
  { b with toWorldObject := { w2 with x := w2.x + w2.dx, y := w2.y + w2.dy } }

/-- The World: canvas dimensions, the entity lists and the settings record
(colors and rendering are out of scope). -/
structure World where
  width : ℚ
  height : ℚ
  balls : List Ball
  players : List Player
  walls : List WorldObject
  ballRadius : ℚ
  goalYLen : ℚ
  paddleXLen : ℚ
  paddleYLen : ℚ
  wallXLen : ℚ
  deriving DecidableEq, Repr

namespace World

/-- World.prototype.xLen: the canvas width. -/
def xLen (w : World) : ℚ := w.width

/-- World.prototype.yLen: the canvas height. -/
def yLen (w : World) : ℚ := w.height

/-- World.prototype.xMiddle: Math.round(0.5 * width). -/
def xMiddle (w : World) : ℤ := jsRound ((1/2) * w.width)

/-- World.prototype.yMiddle: Math.round(0.5 * height). -/
def yMiddle (w : World) : ℤ := jsRound ((1/2) * w.height)

/-- World.prototype.getVerticalSurfaces: the walls. -/
def getVerticalSurfaces (w : World) : List WorldObject := w.walls

/-- World.prototype.getHorizontalSurfaces: the players' paddle bodies. -/
def getHorizontalSurfaces (w : World) : List WorldObject :=
  w.players.map Player.body

/-- World.prototype.addBall: push a new Ball at the middle of the
playfield with the configured radius.  Over the rationals the Ball
constructor cannot throw (proved in mkBall_always_ok below); the error
branch is dead. -/
def addBall (w : World) : World :=
  match mkBall ((w.xMiddle : ℤ) : ℚ) ((w.yMiddle : ℤ) : ℚ) w.ballRadius with
  | .ok b => { w with balls := w.balls ++ [b] }
  | .error _ => w

/-- The opening of World.prototype.update: spawn a ball when none are
left. -/
def ensureBall (w : World) : World :=
  if w.balls.length < 1 then w.addBall else w

/-- The player loop of World.prototype.update: each player updates in list
order, reading the live wall list, world height and ball list (so a ball
caught by an earlier player's goal is gone for later players). -/
def playersPhase (keysDown : List ℕ) (walls : List WorldObject) (worldYLen : ℚ) :
    List Player → List Ball → List Player × List Ball
  | [], balls => ([], balls)
  | p :: ps, balls =>
    let pb :=
      if p.isComputer then Computer.update walls worldYLen p balls
      else Player.update keysDown walls p balls
    let rest := playersPhase keysDown walls worldYLen ps pb.2
    (pb.1 :: rest.1, rest.2)

/-- World.prototype.update: ensure a ball exists, update the walls (a
no-op: both wall update bodies are empty in the source), update the
players, then update every ball against the walls and the already-updated
paddle bodies. -/
def update (keysDown : List ℕ) (w : World) : World :=
  let w1 := w.ensureBall
  let pp := playersPhase keysDown w1.getVerticalSurfaces w1.yLen w1.players w1.balls
  let paddles := pp.1.map Player.body
  { w1 with
    players := pp.1
    balls := pp.2.map (Ball.update w1.getVerticalSurfaces paddles) }

end World

/-- Structural reformulation of the catchBallsAux loop, used to reason
about (and evaluate) it: scanning the not-yet-visited suffix of the ball
list, a touching ball is caught and the ball immediately after it is
carried over unexamined (the splice shifts it into an index the loop has
already passed).  Returns (caught, remaining).  Proved equal to
Goal.catchBallsAux by catchBallsAux_eq_catchRun below. -/
def catchRun (g : WorldObject) : List Ball → List Ball × List Ball
  | [] => ([], [])
  | b :: rest =>
    if b.toWorldObject.touches g then
      match rest with
      | [] => ([b], [])
      | c :: rest2 =>
        let p := catchRun g rest2
        (b :: p.1, c :: p.2)
    else
      let p := catchRun g rest
      (p.1, b :: p.2)

/-- Spec-level overlap relation, written from the spec's words: the
axis-aligned bounding boxes of the two bodies overlap in both the x and y
axes, with inclusive bounds. -/
def aabbOverlap (a b : WorldObject) : Prop :=
  (a.xMin ≤ b.xMax ∧ b.xMin ≤ a.xMax) ∧ (a.yMin ≤ b.yMax ∧ b.yMin ≤ a.yMax)

/-- The claimed bound property of a body: xMin() ≤ x ≤ xMax() and
yMin() ≤ y ≤ yMax(). -/
def BoundsOk (b : WorldObject) : Prop :=
  (((b.xMin : ℤ) : ℚ) ≤ b.x ∧ b.x ≤ ((b.xMax : ℤ) : ℚ))
    ∧ (((b.yMin : ℤ) : ℚ) ≤ b.y ∧ b.y ≤ ((b.yMax : ℤ) : ℚ))

/-- A rational that is an integer. -/
def IsInt (q : ℚ) : Prop := ∃ n : ℤ, q = (n : ℚ)

/-- The claimed integrality invariant of a body (position, extents and —
needed to propagate it through position integration — velocity are
integers) together with the extent lower bound. -/
def IntInv (b : WorldObject) : Prop :=
  IsInt b.x ∧ IsInt b.y ∧ IsInt b.xLen ∧ IsInt b.yLen ∧ IsInt b.dx ∧ IsInt b.dy
    ∧ 1 ≤ b.xLen ∧ 1 ≤ b.yLen

/-- Two bodies that agree on everything except possibly velocity (dx, dy):
the frame of the bounce resolvers. -/
def SameBody (a b : WorldObject) : Prop :=
  a.kind = b.kind ∧ a.x = b.x ∧ a.y = b.y ∧ a.xLen = b.xLen ∧ a.yLen = b.yLen
    ∧ a.dxLen = b.dxLen ∧ a.dyLen = b.dyLen

/-- Two bodies with the same extents. -/
def SameExtents (a b : WorldObject) : Prop :=
  a.xLen = b.xLen ∧ a.yLen = b.yLen

/-- Fixture: a static wall placed like the source's left wall. -/
def wpWall : WorldObject :=
  { kind := .wall, x := 0, y := 300, xLen := 200, yLen := 600,
    dx := 0, dy := 0, dxLen := 0, dyLen := 0 }

/-- Fixture: a ball whose left edge sits on the wall's right edge, moving
toward the wall with dx = -5. -/
def wpBallAtWall : WorldObject :=
  { kind := .ball, x := 108, y := 300, xLen := 16, yLen := 16,
    dx := -5, dy := 3, dxLen := 0, dyLen := 0 }

/-- Fixture: a goal strip along the bottom of the playfield. -/
def wpGoal : Goal :=
  { toWorldObject :=
      { kind := .goal, x := 50, y := 0, xLen := 200, yLen := 2,
        dx := 0, dy := 0, dxLen := 0, dyLen := 0 },
    balls := [] }

/-- Fixture: a ball overlapping wpGoal. -/
def wpBallA : Ball :=
  { toWorldObject :=
      { kind := .ball, x := 40, y := 1, xLen := 4, yLen := 4,
        dx := 0, dy := 3, dxLen := 0, dyLen := 0 },
    radius := 2 }

/-- Fixture: a second, distinct ball also overlapping wpGoal. -/
def wpBallB : Ball :=
  { toWorldObject :=
      { kind := .ball, x := 60, y := 1, xLen := 4, yLen := 4,
        dx := 0, dy := 3, dxLen := 0, dyLen := 0 },
    radius := 2 }

/-- Fixture: the computer's paddle near the top of a 600-high playfield. -/
def wpCompBody : WorldObject :=
  { kind := .paddle, x := 50, y := 580, xLen := 50, yLen := 10,
    dx := 0, dy := 0, dxLen := 0, dyLen := 0 }

/-- Fixture: the computer's goal at the top edge. -/
def wpCompGoal : Goal :=
  { toWorldObject :=
      { kind := .goal, x := 50, y := 599, xLen := 100, yLen := 1,
        dx := 0, dy := 0, dxLen := 0, dyLen := 0 },
    balls := [] }

/-- Fixture: the computer player built from the two fixtures above. -/
def wpComp : Player := mkComputer wpCompBody wpCompGoal

/-- Fixture: a far-away ball moving up (dy = 3), toward the computer's
paddle. -/
def wpBallUp : Ball :=
  { toWorldObject :=
      { kind := .ball, x := 100, y := 100, xLen := 16, yLen := 16,
        dx := 0, dy := 3, dxLen := 0, dyLen := 0 },
    radius := 8 }

/-- Fixture: the same far-away ball moving down (dy = -3), away from the
computer's paddle. -/
def wpBallDown : Ball :=
  { toWorldObject :=
      { kind := .ball, x := 100, y := 100, xLen := 16, yLen := 16,
        dx := 0, dy := -3, dxLen := 0, dyLen := 0 },
    radius := 8 }

/-- Fixture: a world with no balls, for the spawn scenario. -/
def wpWorld0 : World :=
  { width := 400, height := 600, balls := [], players := [], walls := [],
    ballRadius := 8, goalYLen := 1, paddleXLen := 50, paddleYLen := 10,
    wallXLen := 200 }

/- ### Helper lemmas -/

theorem jsRound_intCast (n : ℤ) : jsRound ((n : ℤ) : ℚ) = n := by
  rw [jsRound, Int.floor_int_add]
  norm_num

theorem one_le_jsRound {q : ℚ} (h : 1 ≤ q) : 1 ≤ jsRound q := by
  rw [jsRound, Int.le_floor]
  push_cast
  linarith

theorem sameBody_refl (a : WorldObject) : SameBody a a := by
  simp [SameBody]

theorem sameBody_trans {a b c : WorldObject} (h1 : SameBody a b)
    (h2 : SameBody b c) : SameBody a c := by
  obtain ⟨k1, x1, y1, xl1, yl1, dxl1, dyl1⟩ := h1
  obtain ⟨k2, x2, y2, xl2, yl2, dxl2, dyl2⟩ := h2
  exact ⟨k1.trans k2, x1.trans x2, y1.trans y2, xl1.trans xl2,
    yl1.trans yl2, dxl1.trans dxl2, dyl1.trans dyl2⟩

theorem hBounceStep_sameBody (b s : WorldObject) :
    SameBody (WorldObject.hBounceStep b s) b := by
  unfold WorldObject.hBounceStep
  split
  · dsimp only
    split <;> simp [SameBody]
  · exact sameBody_refl b

theorem vBounceStep_sameBody (b s : WorldObject) :
    SameBody (WorldObject.vBounceStep b s) b := by
  unfold WorldObject.vBounceStep
  split
  · dsimp only
    split <;> simp [SameBody]
  · exact sameBody_refl b

theorem foldl_sameBody (step : WorldObject → WorldObject → WorldObject)
    (hstep : ∀ b s, SameBody (step b s) b) :
    ∀ (ss : List WorldObject) (b : WorldObject), SameBody (ss.foldl step b) b := by
  intro ss
  induction ss with
  | nil => intro b; exact sameBody_refl b
  | cons s ss ih =>
    intro b
    exact sameBody_trans (ih (step b s)) (hstep b s)

theorem horizontalBounce_sameBody (b : WorldObject) (ss : List WorldObject) :
    SameBody (b.horizontalBounce ss) b :=
  foldl_sameBody _ hBounceStep_sameBody ss b

theorem verticalBounce_sameBody (b : WorldObject) (ss : List WorldObject) :
    SameBody (b.verticalBounce ss) b :=
  foldl_sameBody _ vBounceStep_sameBody ss b

theorem boundsOk_of_extents {b : WorldObject} (hx : 1 ≤ b.xLen) (hy : 1 ≤ b.yLen) :
    BoundsOk b := by
  refine ⟨⟨?_, ?_⟩, ⟨?_, ?_⟩⟩
  · show ((⌊b.x - (1/2) * b.xLen + 1/2⌋ : ℤ) : ℚ) ≤ b.x
    have h0 := Int.floor_le (b.x - (1/2) * b.xLen + 1/2)
    linarith
  · show b.x ≤ ((⌊b.x + (1/2) * b.xLen + 1/2⌋ : ℤ) : ℚ)
    have h1 : ⌊b.x + (1 : ℚ)⌋ ≤ ⌊b.x + (1/2) * b.xLen + 1/2⌋ :=
      Int.floor_mono (by linarith)
    have h2 : ⌊b.x + (1 : ℚ)⌋ = ⌊b.x⌋ + 1 := Int.floor_add_one b.x
    have h3 := Int.lt_floor_add_one b.x
    have h4 : ((⌊b.x⌋ + 1 : ℤ) : ℚ) ≤ ((⌊b.x + (1/2) * b.xLen + 1/2⌋ : ℤ) : ℚ) := by
      exact_mod_cast h2 ▸ h1
    push_cast at h4
    linarith
  · show ((⌊b.y - (1/2) * b.yLen + 1/2⌋ : ℤ) : ℚ) ≤ b.y
    have h0 := Int.floor_le (b.y - (1/2) * b.yLen + 1/2)
    linarith
  · show b.y ≤ ((⌊b.y + (1/2) * b.yLen + 1/2⌋ : ℤ) : ℚ)
    have h1 : ⌊b.y + (1 : ℚ)⌋ ≤ ⌊b.y + (1/2) * b.yLen + 1/2⌋ :=
      Int.floor_mono (by linarith)
    have h2 : ⌊b.y + (1 : ℚ)⌋ = ⌊b.y⌋ + 1 := Int.floor_add_one b.y
    have h3 := Int.lt_floor_add_one b.y
    have h4 : ((⌊b.y⌋ + 1 : ℤ) : ℚ) ≤ ((⌊b.y + (1/2) * b.yLen + 1/2⌋ : ℤ) : ℚ) := by
      exact_mod_cast h2 ▸ h1
    push_cast at h4
    linarith

theorem mkWorldObject_ok_fields {k : BodyKind} {x y xl yl : ℚ} {b : WorldObject}
    (h : mkWorldObject k x y xl yl = .ok b) :
    b = { kind := k, x := ((jsRound x : ℤ) : ℚ), y := ((jsRound y : ℤ) : ℚ),
          xLen := ((jsRound xl : ℤ) : ℚ), yLen := ((jsRound yl : ℤ) : ℚ),
          dx := 0, dy := 0, dxLen := 0, dyLen := 0 }
      ∧ 1 ≤ xl ∧ 1 ≤ yl := by
  unfold mkWorldObject at h
  split_ifs at h with h1 h2
  cases h
  exact ⟨rfl, h1, h2⟩

theorem mkWorldObject_ok_extents {k : BodyKind} {x y xl yl : ℚ} {b : WorldObject}
    (h : mkWorldObject k x y xl yl = .ok b) : 1 ≤ b.xLen ∧ 1 ≤ b.yLen := by
  obtain ⟨hb, h1, h2⟩ := mkWorldObject_ok_fields h
  subst hb
  constructor
  · show (1 : ℚ) ≤ ((jsRound xl : ℤ) : ℚ)
    exact_mod_cast one_le_jsRound h1
  · show (1 : ℚ) ≤ ((jsRound yl : ℤ) : ℚ)
    exact_mod_cast one_le_jsRound h2

theorem paddleUpdate_sameExtents (ws : List WorldObject) (b : WorldObject) :
    SameExtents (paddleUpdate ws b) b := by
  obtain ⟨-, -, -, hxl, hyl, -, -⟩ := horizontalBounce_sameBody b ws
  exact ⟨hxl, hyl⟩

theorem ballUpdate_sameExtents (vs hs : List WorldObject) (b : Ball) :
    SameExtents (Ball.update vs hs b).toWorldObject b.toWorldObject := by
  obtain ⟨-, -, -, hxl1, hyl1, -, -⟩ := horizontalBounce_sameBody b.toWorldObject vs
  obtain ⟨-, -, -, hxl2, hyl2, -, -⟩ :=
    verticalBounce_sameBody (b.toWorldObject.horizontalBounce vs) hs
  exact ⟨hxl2.trans hxl1, hyl2.trans hyl1⟩

theorem playerUpdate_body_sameExtents (ks : List ℕ) (ws : List WorldObject)
    (p : Player) (bs : List Ball) :
    SameExtents (Player.update ks ws p bs).1.body p.body := by
  obtain ⟨hxl, hyl⟩ := paddleUpdate_sameExtents ws
    { p.body with dx := playerComputeDx p ks, dy := 0 }
  exact ⟨hxl, hyl⟩

theorem computerUpdate_body_sameExtents (ws : List WorldObject) (yl : ℚ)
    (p : Player) (bs : List Ball) :
    SameExtents (Computer.update ws yl p bs).1.body p.body := by
  rcases bs with - | ⟨ball, rest⟩ <;>
    simp only [Computer.update] <;>
    split_ifs <;>
    exact ⟨(paddleUpdate_sameExtents ws _).1, (paddleUpdate_sameExtents ws _).2⟩

theorem mkBall_ok (x y r : ℚ) :
    ∃ b : Ball, mkBall x y r = .ok b
      ∧ b.x = ((jsRound x : ℤ) : ℚ) ∧ b.y = ((jsRound y : ℤ) : ℚ)
      ∧ b.dx = 0 ∧ b.dy = 3
      ∧ b.radius = (((if r ≠ 0 ∧ r ≥ 1 then jsRound r else 1) : ℤ) : ℚ)
      ∧ 1 ≤ b.radius ∧ b.xLen = 2 * b.radius ∧ b.yLen = 2 * b.radius := by
  have h1 : 1 ≤ (if r ≠ 0 ∧ r ≥ 1 then jsRound r else 1) := by
    split_ifs with h
    · exact one_le_jsRound h.2
    · exact le_refl 1
  set rr : ℤ := if r ≠ 0 ∧ r ≥ 1 then jsRound r else 1 with hrr
  have h2 : (1 : ℚ) ≤ (rr : ℚ) := by exact_mod_cast h1
  have hge : (2 * (rr : ℚ)) ≥ 1 := by linarith
  have hjr : jsRound (2 * (rr : ℚ)) = 2 * rr := by
    have : (2 * (rr : ℚ)) = ((2 * rr : ℤ) : ℚ) := by push_cast; ring
    rw [this, jsRound_intCast]
  have hok : mkBall x y r = .ok
      ⟨⟨.ball, ((jsRound x : ℤ) : ℚ), ((jsRound y : ℤ) : ℚ),
        ((jsRound (2 * (rr : ℚ)) : ℤ) : ℚ), ((jsRound (2 * (rr : ℚ)) : ℤ) : ℚ),
        0, 3, 0, 0⟩, (rr : ℚ)⟩ := by
    unfold mkBall mkWorldObject
    rw [← hrr]
    dsimp only
    rw [if_neg (not_not_intro hge), if_neg (not_not_intro hge)]
    rfl
  refine ⟨_, hok, rfl, rfl, rfl, rfl, rfl, h2, ?_, ?_⟩
  · show ((jsRound (2 * (rr : ℚ)) : ℤ) : ℚ) = 2 * (rr : ℚ)
    rw [hjr]; push_cast; ring
  · show ((jsRound (2 * (rr : ℚ)) : ℤ) : ℚ) = 2 * (rr : ℚ)
    rw [hjr]; push_cast; ring

/- ### Claim theorems -/

/-- C5: WorldObject.prototype.touches is symmetric — touches(A, B) equals
touches(B, A) for every pair of bodies — and returns true exactly when the
axis-aligned bounding boxes of the two bodies overlap in both the x and y
axes with inclusive bounds.  The embedding of touches is a pure function
of the two bodies, mirroring that the source method only reads the bound
accessors and writes nothing. -/
theorem touches_symm_and_characterizes_overlap (a b : WorldObject) :
    a.touches b = b.touches a ∧ (a.touches b = true ↔ aabbOverlap a b) := by
  constructor
  · rw [Bool.eq_iff_iff]
    simp only [WorldObject.touches, Bool.and_eq_true, decide_eq_true_eq, ge_iff_le]
    tauto
  · simp only [WorldObject.touches, aabbOverlap, Bool.and_eq_true, decide_eq_true_eq,
      ge_iff_le]

/-- C10: horizontal and vertical bounce resolution mutate only the moving
body's velocity components (dx, dy): its kind, position (x, y), extents
(xLen, yLen) and extent rates are all unchanged, for every candidate
surface list.  Every surface is left entirely unchanged by construction:
the embedding returns only the moving body, because the source loops only
read the surfaces (touches and the gradient methods are observers). -/
theorem bounce_mutates_only_velocity (b : WorldObject) (ss : List WorldObject) :
    SameBody (b.horizontalBounce ss) b ∧ SameBody (b.verticalBounce ss) b :=
  ⟨horizontalBounce_sameBody b ss, verticalBounce_sameBody b ss⟩

/-- C6: a body at a wall's edge (touching it) and moving toward the wall
with dx = -5 gets dx = +5 from one horizontal bounce resolution against
that wall — sign flipped, magnitude preserved — and its dy is unchanged,
because a wall's x-gradient is constantly 0. -/
theorem wall_bounce_flips_dx (b w : WorldObject) (hk : w.kind = BodyKind.wall)
    (ht : b.touches w = true) (hpos : w.x < b.x) (hdx : b.dx = -5) :
    (b.horizontalBounce [w]).dx = 5 ∧ (b.horizontalBounce [w]).dy = b.dy := by
  have hguard : (b.x ≤ w.x ∧ b.dx ≥ 0) ∨ (b.x > w.x ∧ b.dx ≤ 0) :=
    Or.inr ⟨hpos, by rw [hdx]; norm_num⟩
  simp only [WorldObject.horizontalBounce, List.foldl, WorldObject.hBounceStep, ht,
    if_true]
  rw [if_pos hguard]
  simp only [WorldObject.xGradientAt, hk, hdx]
  norm_num

/-- C8: from a world state with zero balls, the spawn step that opens
World.prototype.update creates exactly one new ball, centered at the
configured spawn point (the middle of the playfield, xMiddle/yMiddle)
with the default velocity dx = 0, dy = 3, and carrying the configured
radius (rounded) whenever the configured radius is at least 1.  The rest
of the tick (walls, players, balls) then runs on this singleton list. -/
theorem spawn_when_no_balls (w : World) (h : w.balls = []) :
    ∃ b : Ball, (w.ensureBall).balls = [b]
      ∧ b.x = ((w.xMiddle : ℤ) : ℚ) ∧ b.y = ((w.yMiddle : ℤ) : ℚ)
      ∧ b.dx = 0 ∧ b.dy = 3
      ∧ (1 ≤ w.ballRadius → b.radius = ((jsRound w.ballRadius : ℤ) : ℚ)) := by
  obtain ⟨b, hok, hx, hy, hdx, hdy, hrad, -, -, -⟩ :=
    mkBall_ok ((w.xMiddle : ℤ) : ℚ) ((w.yMiddle : ℤ) : ℚ) w.ballRadius
  have h1 : w.ensureBall = w.addBall := by
    unfold World.ensureBall
    rw [if_pos]
    rw [h]
    simp
  have h2 : w.addBall = { w with balls := w.balls ++ [b] } := by
    unfold World.addBall
    rw [hok]
  refine ⟨b, ?_, ?_, ?_, hdx, hdy, ?_⟩
  · rw [h1, h2, h]
    simp
  · rw [hx, jsRound_intCast]
  · rw [hy, jsRound_intCast]
  · intro hr
    rw [hrad, if_pos ⟨ne_of_gt (lt_of_lt_of_le one_pos hr), hr⟩]



/-- C7: for a moving body touching a surface, if its velocity component
along the collision axis is nonzero and points toward the surface (sign
of position minus surface center opposite to sign of the velocity), then
after the bounce resolution against that surface the component points
away from the surface — for the horizontal and the vertical resolver. -/
theorem bounce_moves_away (b s : WorldObject) (ht : b.touches s = true) :
    ((b.x < s.x ∧ 0 < b.dx → (b.horizontalBounce [s]).dx < 0)
      ∧ (s.x < b.x ∧ b.dx < 0 → 0 < (b.horizontalBounce [s]).dx))
    ∧ ((b.y < s.y ∧ 0 < b.dy → (b.verticalBounce [s]).dy < 0)
      ∧ (s.y < b.y ∧ b.dy < 0 → 0 < (b.verticalBounce [s]).dy)) := by
  refine ⟨⟨fun h => ?_, fun h => ?_⟩, ⟨fun h => ?_, fun h => ?_⟩⟩
  · simp only [WorldObject.horizontalBounce, List.foldl, WorldObject.hBounceStep, ht,
      if_true]
    rw [if_pos (Or.inl ⟨le_of_lt h.1, le_of_lt h.2⟩)]
    simp only
    linarith [h.2]
  · simp only [WorldObject.horizontalBounce, List.foldl, WorldObject.hBounceStep, ht,
      if_true]
    rw [if_pos (Or.inr ⟨h.1, le_of_lt h.2⟩)]
    simp only
    linarith [h.2]
  · simp only [WorldObject.verticalBounce, List.foldl, WorldObject.vBounceStep, ht,
      if_true]
    rw [if_pos (Or.inl ⟨le_of_lt h.1, le_of_lt h.2⟩)]
    simp only
    linarith [h.2]
  · simp only [WorldObject.verticalBounce, List.foldl, WorldObject.vBounceStep, ht,
      if_true]
    rw [if_pos (Or.inr ⟨h.1, le_of_lt h.2⟩)]
    simp only
    linarith [h.2]

/-- C4: every constructed body satisfies xMin() ≤ x ≤ xMax() and
yMin() ≤ y ≤ yMax(); in fact every body whose extents are at least 1 does
(the bound property depends only on the extents), and every simulation
mutation — bounce resolution, paddle update, ball update, player and
computer update — leaves the extents unchanged, so the property persists
after any mutation. -/
theorem bodies_within_bounds :
    (∀ (k : BodyKind) (x y xl yl : ℚ) (b : WorldObject),
        mkWorldObject k x y xl yl = .ok b → BoundsOk b)
    ∧ (∀ b : WorldObject, 1 ≤ b.xLen → 1 ≤ b.yLen → BoundsOk b)
    ∧ (∀ (b : WorldObject) (ss : List WorldObject),
        SameExtents (b.horizontalBounce ss) b ∧ SameExtents (b.verticalBounce ss) b)
    ∧ (∀ (ws : List WorldObject) (b : WorldObject), SameExtents (paddleUpdate ws b) b)
    ∧ (∀ (vs hs : List WorldObject) (b : Ball),
        SameExtents (Ball.update vs hs b).toWorldObject b.toWorldObject)
    ∧ (∀ (ks : List ℕ) (ws : List WorldObject) (p : Player) (bs : List Ball),
        SameExtents (Player.update ks ws p bs).1.body p.body)
    ∧ (∀ (ws : List WorldObject) (yl : ℚ) (p : Player) (bs : List Ball),
        SameExtents (Computer.update ws yl p bs).1.body p.body) := by
  refine ⟨?_, ?_, ?_, paddleUpdate_sameExtents, ballUpdate_sameExtents,
    playerUpdate_body_sameExtents, computerUpdate_body_sameExtents⟩
  · intro k x y xl yl b h
    obtain ⟨h1, h2⟩ := mkWorldObject_ok_extents h
    exact boundsOk_of_extents h1 h2
  · intro b h1 h2
    exact boundsOk_of_extents h1 h2
  · intro b ss
    refine ⟨?_, ?_⟩
    · obtain ⟨-, -, -, hxl, hyl, -, -⟩ := horizontalBounce_sameBody b ss
      exact ⟨hxl, hyl⟩
    · obtain ⟨-, -, -, hxl, hyl, -, -⟩ := verticalBounce_sameBody b ss
      exact ⟨hxl, hyl⟩




theorem mkWorldObject_error_xLen (k : BodyKind) (x y yl : ℚ) {xl : ℚ}
    (h : xl < 1) : mkWorldObject k x y xl yl = .error .xLenBad := by
  unfold mkWorldObject
  rw [if_pos (not_le.mpr h)]

theorem mkWorldObject_error_yLen (k : BodyKind) (x y : ℚ) {xl yl : ℚ}
    (h1 : 1 ≤ xl) (h : yl < 1) : mkWorldObject k x y xl yl = .error .yLenBad := by
  unfold mkWorldObject
  rw [if_neg (not_not_intro h1), if_pos (not_le.mpr h)]

/-- C2 (amended): the shared WorldObject constructor — and LeftWall,
RightWall and Goal construction, which delegate to it unchanged — fails
immediately on any extent less than 1 (non-finite positions, which also
fail in the source, are not representable in the rational model, where
every value is finite); Ball and Paddle construction, however, silently
substitute defaults for an out-of-range extent argument (radius 1; paddle
extents 20 and 10) before delegating, and therefore construct
successfully instead of failing. -/
theorem construction_validation :
    (∀ (k : BodyKind) (x y xl yl : ℚ), xl < 1 →
        mkWorldObject k x y xl yl = .error .xLenBad)
    ∧ (∀ (k : BodyKind) (x y xl yl : ℚ), 1 ≤ xl → yl < 1 →
        mkWorldObject k x y xl yl = .error .yLenBad)
    ∧ (∀ x y xl yl : ℚ, xl < 1 →
        mkLeftWall x y xl yl = .error .xLenBad
          ∧ mkRightWall x y xl yl = .error .xLenBad
          ∧ mkGoal x y xl yl = .error .xLenBad)
    ∧ (∀ x y r : ℚ, r < 1 → ∃ b : Ball, mkBall x y r = .ok b ∧ b.radius = 1)
    ∧ (∀ x y xl yl : ℚ, xl < 1 → yl < 1 →
        mkPaddle x y xl yl = mkWorldObject .paddle x y 20 10) := by
  refine ⟨fun k x y xl yl h => mkWorldObject_error_xLen k x y yl h,
    fun k x y xl yl h1 h => mkWorldObject_error_yLen k x y h1 h, ?_, ?_, ?_⟩
  · intro x y xl yl h
    refine ⟨mkWorldObject_error_xLen .wall x y yl h,
      mkWorldObject_error_xLen .wall x y yl h, ?_⟩
    unfold mkGoal
    rw [mkWorldObject_error_xLen .goal x y yl h]
    rfl
  · intro x y r h
    obtain ⟨b, hok, -, -, -, -, hrad, -, -, -⟩ := mkBall_ok x y r
    refine ⟨b, hok, ?_⟩
    rw [hrad, if_neg (fun hc => (not_le.mpr h) hc.2)]
    norm_num
  · intro x y xl yl h1 h2
    unfold mkPaddle
    dsimp only
    rw [if_neg (fun hc => (not_le.mpr h1) hc.2),
      if_neg (fun hc => (not_le.mpr h2) hc.2)]

theorem touches_eq_of_same_box {a b : WorldObject} (h1 : a.x = b.x)
    (h2 : a.y = b.y) (h3 : a.xLen = b.xLen) (h4 : a.yLen = b.yLen)
    (s : WorldObject) : a.touches s = b.touches s := by
  simp only [WorldObject.touches, WorldObject.xMin, WorldObject.xMax,
    WorldObject.yMin, WorldObject.yMax, h1, h2, h3, h4]

theorem horizontalBounce_no_touch (b : WorldObject) :
    ∀ ss : List WorldObject, (∀ s ∈ ss, b.touches s = false) →
      b.horizontalBounce ss = b := by
  intro ss
  induction ss with
  | nil => intro _; rfl
  | cons s ss ih =>
    intro h
    have hstep : WorldObject.hBounceStep b s = b := by
      unfold WorldObject.hBounceStep
      rw [h s (List.mem_cons_self s ss)]
      simp
    show List.foldl _ (WorldObject.hBounceStep b s) ss = b
    rw [hstep]
    exact ih (fun s' hs' => h s' (List.mem_cons_of_mem s hs'))

theorem horizontalBounce_no_touch_box (b base : WorldObject) (hx : b.x = base.x)
    (hy : b.y = base.y) (hxl : b.xLen = base.xLen) (hyl : b.yLen = base.yLen)
    (ss : List WorldObject) (h : ∀ s ∈ ss, base.touches s = false) :
    b.horizontalBounce ss = b := by
  apply horizontalBounce_no_touch
  intro s hs
  rw [touches_eq_of_same_box hx hy hxl hyl s]
  exact h s hs

theorem hbounce_dx_of_far (base : WorldObject) {b : WorldObject}
    {ss : List WorldObject} (h : ∀ s ∈ ss, base.touches s = false)
    (hx : b.x = base.x) (hy : b.y = base.y) (hxl : b.xLen = base.xLen)
    (hyl : b.yLen = base.yLen) : (b.horizontalBounce ss).dx = b.dx := by
  rw [horizontalBounce_no_touch_box b base hx hy hxl hyl ss h]

/-- C3 (amended): for every world state with at least one ball, if the
first ball is moving toward the computer's paddle (ball.dy > 0, which is
upward in the world's bottom-left-origin coordinates — the computer's
paddle is the top one), the paddle's y distance to the ball exceeds the
tracking threshold round(0.2 * playfield height), and the paddle is not
touching any wall, then after Computer.prototype.update the paddle's
horizontal velocity is exactly ball.x - paddle.x, clamped in absolute
value to the maximum speed maxDx.  (Without the no-wall-contact proviso
the bounce resolution later in the same update could flip the sign again,
and for a ball moving downward — dy < 0 — the tracking branch does not
run at all: see the counterexample.) -/
theorem computer_tracking_sets_dx (walls : List WorldObject) (yL : ℚ)
    (p : Player) (ball : Ball) (rest : List Ball)
    (hdy : ball.dy > 0)
    (hdist : p.body.y - ball.y > ((jsRound ((2/10) * yL) : ℤ) : ℚ))
    (hwall : ∀ s ∈ walls, p.body.touches s = false) :
    (Computer.update walls yL p (ball :: rest)).1.body.dx =
      if |ball.x - p.body.x| > p.maxDx then
        (if ball.x - p.body.x > 0 then p.maxDx else -1 * p.maxDx)
      else ball.x - p.body.x := by
  unfold Computer.update paddleUpdate
  dsimp only
  split_ifs with h1 h2 h3 h4 h5 h6 h7 h8 h9 h10 <;>
    first
      | exact absurd ⟨hdy, hdist⟩ h1
      | (rw [hbounce_dx_of_far p.body hwall] <;> rfl)

theorem IsInt.intCast (n : ℤ) : IsInt ((n : ℤ) : ℚ) := ⟨n, rfl⟩

theorem IsInt.zero : IsInt 0 := ⟨0, by norm_num⟩

theorem IsInt.three : IsInt 3 := ⟨3, by norm_num⟩

theorem IsInt.add {a b : ℚ} (ha : IsInt a) (hb : IsInt b) : IsInt (a + b) := by
  obtain ⟨m, rfl⟩ := ha
  obtain ⟨n, rfl⟩ := hb
  exact ⟨m + n, by push_cast; ring⟩

theorem IsInt.sub {a b : ℚ} (ha : IsInt a) (hb : IsInt b) : IsInt (a - b) := by
  obtain ⟨m, rfl⟩ := ha
  obtain ⟨n, rfl⟩ := hb
  exact ⟨m - n, by push_cast; ring⟩

theorem IsInt.negOneMul {a : ℚ} (ha : IsInt a) : IsInt (-1 * a) := by
  obtain ⟨m, rfl⟩ := ha
  exact ⟨-m, by push_cast; ring⟩

theorem isInt_xGradientAt {s : WorldObject} (hs : IsInt s.dx) (a c : ℚ) :
    IsInt (WorldObject.xGradientAt s a c) := by
  unfold WorldObject.xGradientAt
  split
  · exact hs
  · exact IsInt.zero

theorem isInt_yGradientAt {s : WorldObject} (hs : IsInt s.dx) (a c : ℚ) :
    IsInt (WorldObject.yGradientAt s a c) := by
  unfold WorldObject.yGradientAt
  split
  · exact hs
  · exact IsInt.zero

theorem intInv_hBounceStep {b s : WorldObject} (hb : IntInv b) (hs : IsInt s.dx) :
    IntInv (WorldObject.hBounceStep b s) := by
  obtain ⟨hx, hy, hxl, hyl, hdx, hdy, he1, he2⟩ := hb
  unfold WorldObject.hBounceStep
  split_ifs with h1 h2
  · exact ⟨hx, hy, hxl, hyl, hdx.negOneMul,
      hdy.sub (isInt_xGradientAt hs _ _), he1, he2⟩
  · exact ⟨hx, hy, hxl, hyl, hdx, hdy.sub (isInt_xGradientAt hs _ _), he1, he2⟩
  · exact ⟨hx, hy, hxl, hyl, hdx, hdy, he1, he2⟩

theorem intInv_vBounceStep {b s : WorldObject} (hb : IntInv b) (hs : IsInt s.dx) :
    IntInv (WorldObject.vBounceStep b s) := by
  obtain ⟨hx, hy, hxl, hyl, hdx, hdy, he1, he2⟩ := hb
  unfold WorldObject.vBounceStep
  split_ifs with h1 h2
  · exact ⟨hx, hy, hxl, hyl, hdx.sub (isInt_yGradientAt hs _ _),
      hdy.negOneMul, he1, he2⟩
  · exact ⟨hx, hy, hxl, hyl, hdx.sub (isInt_yGradientAt hs _ _), hdy, he1, he2⟩
  · exact ⟨hx, hy, hxl, hyl, hdx, hdy, he1, he2⟩

theorem intInv_horizontalBounce :
    ∀ (ss : List WorldObject) (b : WorldObject), IntInv b →
      (∀ s ∈ ss, IsInt s.dx) → IntInv (b.horizontalBounce ss) := by
  intro ss
  induction ss with
  | nil => intro b hb _; exact hb
  | cons s ss ih =>
    intro b hb hs
    exact ih _ (intInv_hBounceStep hb (hs s (List.mem_cons_self s ss)))
      (fun s' h' => hs s' (List.mem_cons_of_mem s h'))

theorem intInv_verticalBounce :
    ∀ (ss : List WorldObject) (b : WorldObject), IntInv b →
      (∀ s ∈ ss, IsInt s.dx) → IntInv (b.verticalBounce ss) := by
  intro ss
  induction ss with
  | nil => intro b hb _; exact hb
  | cons s ss ih =>
    intro b hb hs
    exact ih _ (intInv_vBounceStep hb (hs s (List.mem_cons_self s ss)))
      (fun s' h' => hs s' (List.mem_cons_of_mem s h'))

theorem intInv_paddleUpdate {ws : List WorldObject} {b : WorldObject}
    (hb : IntInv b) (hw : ∀ s ∈ ws, IsInt s.dx) :
    IntInv (paddleUpdate ws b) := by
  obtain ⟨hx, hy, hxl, hyl, hdx, hdy, he1, he2⟩ := intInv_horizontalBounce ws b hb hw
  exact ⟨hx.add hdx, hy, hxl, hyl, hdx, IsInt.zero, he1, he2⟩

theorem intInv_ballUpdate {vs hs : List WorldObject} {b : Ball}
    (hb : IntInv b.toWorldObject) (hv : ∀ s ∈ vs, IsInt s.dx)
    (hh : ∀ s ∈ hs, IsInt s.dx) :
    IntInv (Ball.update vs hs b).toWorldObject := by
  obtain ⟨hx, hy, hxl, hyl, hdx, hdy, he1, he2⟩ :=
    intInv_verticalBounce hs (b.toWorldObject.horizontalBounce vs)
      (intInv_horizontalBounce vs b.toWorldObject hb hv) hh
  exact ⟨hx.add hdx, hy.add hdy, hxl, hyl, hdx, hdy, he1, he2⟩

theorem isInt_playerComputeDx (p : Player) (hd : IsInt p.dx0) (ks : List ℕ) :
    IsInt (playerComputeDx p ks) := by
  unfold playerComputeDx
  have hgen : ∀ (l : List ℕ) (acc : ℚ), IsInt acc →
      IsInt (l.foldl (fun d k =>
        if some k = p.moveLeftKey then -1 * p.dx0
        else if some k = p.moveRightKey then p.dx0
        else d) acc) := by
    intro l
    induction l with
    | nil => intro acc hacc; exact hacc
    | cons k l ih =>
      intro acc hacc
      apply ih
      dsimp only
      split_ifs
      · exact hd.negOneMul
      · exact hd
      · exact hacc
  exact hgen ks 0 IsInt.zero

theorem intInv_playerUpdate {ks : List ℕ} {ws : List WorldObject} {p : Player}
    {bs : List Ball} (hb : IntInv p.body) (hd : IsInt p.dx0)
    (hw : ∀ s ∈ ws, IsInt s.dx) :
    IntInv (Player.update ks ws p bs).1.body := by
  obtain ⟨hx, hy, hxl, hyl, -, -, he1, he2⟩ := hb
  exact intInv_paddleUpdate
    ⟨hx, hy, hxl, hyl, isInt_playerComputeDx p hd ks, IsInt.zero, he1, he2⟩ hw

theorem intInv_setDy0_paddleUpdate {ws : List WorldObject} {b : WorldObject}
    (hb : IntInv b) (hw : ∀ s ∈ ws, IsInt s.dx) :
    IntInv { paddleUpdate ws b with dy := 0 } := by
  obtain ⟨px, py, pxl, pyl, pdx, -, pe1, pe2⟩ := intInv_paddleUpdate hb hw
  exact ⟨px, py, pxl, pyl, pdx, IsInt.zero, pe1, pe2⟩

theorem intInv_computerUpdate {ws : List WorldObject} {yL : ℚ} {p : Player}
    {bs : List Ball} (hb : IntInv p.body) (hm : IsInt p.maxDx)
    (hw : ∀ s ∈ ws, IsInt s.dx) (hballs : ∀ bb ∈ bs, IntInv bb.toWorldObject) :
    IntInv (Computer.update ws yL p bs).1.body := by
  obtain ⟨hx, hy, hxl, hyl, hdx, hdy, he1, he2⟩ := hb
  unfold Computer.update
  dsimp only
  rcases bs with - | ⟨ball, rest⟩
  · dsimp only
    split_ifs <;>
      first
        | exact intInv_setDy0_paddleUpdate ⟨hx, hy, hxl, hyl, hm, hdy, he1, he2⟩ hw
        | exact intInv_setDy0_paddleUpdate
            ⟨hx, hy, hxl, hyl, hm.negOneMul, hdy, he1, he2⟩ hw
        | exact intInv_setDy0_paddleUpdate ⟨hx, hy, hxl, hyl, hdx, hdy, he1, he2⟩ hw
  · have hball := hballs ball (List.mem_cons_self ball rest)
    dsimp only
    split_ifs <;>
      first
        | exact intInv_setDy0_paddleUpdate ⟨hx, hy, hxl, hyl, hm, hdy, he1, he2⟩ hw
        | exact intInv_setDy0_paddleUpdate
            ⟨hx, hy, hxl, hyl, hm.negOneMul, hdy, he1, he2⟩ hw
        | exact intInv_setDy0_paddleUpdate ⟨hx, hy, hxl, hyl, hdx, hdy, he1, he2⟩ hw
        | exact intInv_setDy0_paddleUpdate
            ⟨hx, hy, hxl, hyl, (hball.1).sub hx, hdy, he1, he2⟩ hw
        | exact intInv_setDy0_paddleUpdate
            ⟨hx, hy, hxl, hyl, IsInt.intCast _, hdy, he1, he2⟩ hw
        | exact intInv_setDy0_paddleUpdate
            ⟨hx, hy, hxl, hyl, (IsInt.intCast _).negOneMul, hdy, he1, he2⟩ hw

theorem intInv_mkWorldObject {k : BodyKind} {x y xl yl : ℚ} {b : WorldObject}
    (h : mkWorldObject k x y xl yl = .ok b) : IntInv b := by
  obtain ⟨hx1, hy1⟩ := mkWorldObject_ok_extents h
  obtain ⟨hb, h1, h2⟩ := mkWorldObject_ok_fields h
  subst hb
  exact ⟨IsInt.intCast _, IsInt.intCast _, IsInt.intCast _, IsInt.intCast _,
    IsInt.zero, IsInt.zero, hx1, hy1⟩

theorem intInv_mkBall {x y r : ℚ} {b : Ball} (h : mkBall x y r = .ok b) :
    IntInv b.toWorldObject := by
  obtain ⟨b', hok, hx, hy', hdx, hdy, hrad, hr1, hxl, hyl⟩ := mkBall_ok x y r
  rw [h] at hok
  injection hok with hbb
  subst hbb
  refine ⟨?_, ?_, ?_, ?_, ?_, ?_, ?_, ?_⟩
  · rw [hx]; exact IsInt.intCast _
  · rw [hy']; exact IsInt.intCast _
  · rw [hxl, hrad]
    exact ⟨2 * (if r ≠ 0 ∧ r ≥ 1 then jsRound r else 1), by push_cast; ring⟩
  · rw [hyl, hrad]
    exact ⟨2 * (if r ≠ 0 ∧ r ≥ 1 then jsRound r else 1), by push_cast; ring⟩
  · rw [hdx]; exact IsInt.zero
  · rw [hdy]; exact IsInt.three
  · rw [hxl]; linarith [hr1]
  · rw [hyl]; linarith [hr1]

theorem intInv_mkPaddle {x y xl yl : ℚ} {b : WorldObject}
    (h : mkPaddle x y xl yl = .ok b) : IntInv b := by
  unfold mkPaddle at h
  exact intInv_mkWorldObject h

/-- C9: positions and extents stay integral and extents stay at least 1,
after construction and after every simulation mutation.  The invariant
IntInv — integrality of x, y, xLen, yLen and (needed to push the
invariant through position integration) of dx and dy, plus both extents
at least 1 — is established by the WorldObject, Ball and Paddle
constructors, and preserved by horizontal and vertical bounce resolution,
the paddle update, the ball update (position integration) and the human
and computer player updates, whenever the surfaces and balls involved
have integral velocities as well. -/
theorem integer_state_invariant :
    (∀ (k : BodyKind) (x y xl yl : ℚ) (b : WorldObject),
        mkWorldObject k x y xl yl = .ok b → IntInv b)
    ∧ (∀ (x y r : ℚ) (b : Ball), mkBall x y r = .ok b → IntInv b.toWorldObject)
    ∧ (∀ (x y xl yl : ℚ) (b : WorldObject), mkPaddle x y xl yl = .ok b → IntInv b)
    ∧ (∀ (b : WorldObject) (ss : List WorldObject), IntInv b →
        (∀ s ∈ ss, IsInt s.dx) →
        IntInv (b.horizontalBounce ss) ∧ IntInv (b.verticalBounce ss))
    ∧ (∀ (ws : List WorldObject) (b : WorldObject), IntInv b →
        (∀ s ∈ ws, IsInt s.dx) → IntInv (paddleUpdate ws b))
    ∧ (∀ (vs hs : List WorldObject) (b : Ball), IntInv b.toWorldObject →
        (∀ s ∈ vs, IsInt s.dx) → (∀ s ∈ hs, IsInt s.dx) →
        IntInv (Ball.update vs hs b).toWorldObject)
    ∧ (∀ (ks : List ℕ) (ws : List WorldObject) (p : Player) (bs : List Ball),
        IntInv p.body → IsInt p.dx0 → (∀ s ∈ ws, IsInt s.dx) →
        IntInv (Player.update ks ws p bs).1.body)
    ∧ (∀ (ws : List WorldObject) (yL : ℚ) (p : Player) (bs : List Ball),
        IntInv p.body → IsInt p.maxDx → (∀ s ∈ ws, IsInt s.dx) →
        (∀ bb ∈ bs, IntInv bb.toWorldObject) →
        IntInv (Computer.update ws yL p bs).1.body) :=
  ⟨fun _ _ _ _ _ _ h => intInv_mkWorldObject h,
    fun _ _ _ _ h => intInv_mkBall h,
    fun _ _ _ _ _ h => intInv_mkPaddle h,
    fun b ss hb hs =>
      ⟨intInv_horizontalBounce ss b hb hs, intInv_verticalBounce ss b hb hs⟩,
    fun _ _ hb hw => intInv_paddleUpdate hb hw,
    fun _ _ _ hb hv hh => intInv_ballUpdate hb hv hh,
    fun _ _ _ _ hb hd hw => intInv_playerUpdate hb hd hw,
    fun _ _ _ _ hb hm hw hballs => intInv_computerUpdate hb hm hw hballs⟩

theorem catchRun_nil (g : WorldObject) : catchRun g [] = ([], []) := rfl

theorem catchRun_touch_nil (g : WorldObject) (b : Ball)
    (ht : b.toWorldObject.touches g = true) : catchRun g [b] = ([b], []) := by
  rw [catchRun.eq_def]
  dsimp only
  rw [if_pos ht]

theorem catchRun_touch_cons (g : WorldObject) (b c : Ball) (d2 : List Ball)
    (ht : b.toWorldObject.touches g = true) :
    catchRun g (b :: c :: d2)
      = (b :: (catchRun g d2).1, c :: (catchRun g d2).2) := by
  rw [catchRun.eq_def]
  dsimp only
  rw [if_pos ht]

theorem catchRun_notouch (g : WorldObject) (b : Ball) (rest : List Ball)
    (ht : ¬ b.toWorldObject.touches g = true) :
    catchRun g (b :: rest) = ((catchRun g rest).1, b :: (catchRun g rest).2) := by
  rw [catchRun.eq_def]
  dsimp only
  rw [if_neg ht]

theorem catchBallsAux_eq_catchRun :
    ∀ (n : ℕ) (g : Goal) (balls : List Ball) (i : ℕ), balls.length - i ≤ n →
      Goal.catchBallsAux g balls i =
        ({ g with balls := g.balls ++ (catchRun g.toWorldObject (balls.drop i)).1 },
         balls.take i ++ (catchRun g.toWorldObject (balls.drop i)).2) := by
  intro n
  induction n with
  | zero =>
    intro g balls i hn
    have hle : balls.length ≤ i := by omega
    rw [Goal.catchBallsAux, dif_neg (by omega), List.drop_eq_nil_of_le hle,
      List.take_of_length_le hle, catchRun_nil]
    simp
  | succ n ih =>
    intro g balls i hn
    by_cases h : i < balls.length
    · have hdrop : balls.drop i = balls.get ⟨i, h⟩ :: balls.drop (i + 1) := by
        rw [List.get_eq_getElem]
        exact (List.getElem_cons_drop balls i h).symm
      have hlt : (balls.take i).length = i := by
        rw [List.length_take]; omega
      rw [Goal.catchBallsAux, dif_pos h]
      by_cases ht : (balls.get ⟨i, h⟩).toWorldObject.touches g.toWorldObject = true
      · rw [if_pos ht]
        have hlen : (removeBall balls i).length - (i + 1) ≤ n := by
          unfold removeBall
          rw [List.length_eraseIdx, if_pos h]
          omega
        rw [ih _ _ _ hlen]
        have he : removeBall balls i = balls.take i ++ balls.drop (i + 1) := by
          unfold removeBall
          exact List.eraseIdx_eq_take_drop_succ balls i
        have hd2 : (removeBall balls i).drop (i + 1) = balls.drop (i + 2) := by
          rw [he]
          calc (balls.take i ++ balls.drop (i + 1)).drop (i + 1)
              = (balls.take i ++ balls.drop (i + 1)).drop ((balls.take i).length + 1) := by
                rw [hlt]
            _ = (balls.drop (i + 1)).drop 1 := List.drop_append 1
            _ = balls.drop (i + 2) := by rw [List.drop_drop]
        have ht2 : (removeBall balls i).take (i + 1)
            = balls.take i ++ (balls.drop (i + 1)).take 1 := by
          rw [he]
          calc (balls.take i ++ balls.drop (i + 1)).take (i + 1)
              = (balls.take i ++ balls.drop (i + 1)).take ((balls.take i).length + 1) := by
                rw [hlt]
            _ = balls.take i ++ (balls.drop (i + 1)).take 1 := List.take_append 1
        rw [hd2, ht2, hdrop]
        rcases hcons : balls.drop (i + 1) with - | ⟨c, d2⟩
        · have hlen2 : balls.length ≤ i + 1 := List.drop_eq_nil_iff.mp hcons
          have hnil : balls.drop (i + 2) = [] :=
            List.drop_eq_nil_of_le (by omega)
          rw [hnil, catchRun_nil, catchRun_touch_nil _ _ ht]
          simp
        · have hd2' : balls.drop (i + 2) = d2 := by
            have hh : (balls.drop (i + 1)).drop 1 = balls.drop (i + 2) := by
              rw [List.drop_drop]
            rw [hcons] at hh
            simpa using hh.symm
          rw [hd2', catchRun_touch_cons _ _ _ _ ht]
          simp [List.append_assoc]
      · rw [if_neg ht, ih _ _ _ (by omega), hdrop]
        have htake : balls.take (i + 1) = balls.take i ++ [balls.get ⟨i, h⟩] := by
          rw [List.take_succ]
          congr
          rw [List.getElem?_eq_getElem h]
          rfl
        rw [htake, catchRun_notouch _ _ _ ht]
        simp only [List.append_assoc, List.singleton_append, Prod.mk.injEq]
    · have hle : balls.length ≤ i := by omega
      rw [Goal.catchBallsAux, dif_neg (by omega), List.drop_eq_nil_of_le hle,
        List.take_of_length_le hle, catchRun_nil]
      simp

theorem catchBalls_eq_catchRun (g : Goal) (bs : List Ball) :
    g.catchBalls bs =
      ({ g with balls := g.balls ++ (catchRun g.toWorldObject bs).1 },
       (catchRun g.toWorldObject bs).2) := by
  have h := catchBallsAux_eq_catchRun bs.length g bs 0 (by omega)
  simpa using h

theorem catchRun_sublists (g : WorldObject) :
    ∀ (n : ℕ) (bs : List Ball), bs.length ≤ n →
      (catchRun g bs).1.Sublist bs ∧ (catchRun g bs).2.Sublist bs := by
  intro n
  induction n with
  | zero =>
    intro bs hlen
    rcases bs with - | ⟨b, rest⟩
    · rw [catchRun_nil]
      exact ⟨List.nil_sublist _, List.nil_sublist _⟩
    · simp at hlen
  | succ n ih =>
    intro bs hlen
    rcases bs with - | ⟨b, rest⟩
    · rw [catchRun_nil]
      exact ⟨List.nil_sublist _, List.nil_sublist _⟩
    · by_cases ht : b.toWorldObject.touches g = true
      · rcases rest with - | ⟨c, d2⟩
        · rw [catchRun_touch_nil g b ht]
          exact ⟨List.Sublist.refl _, List.nil_sublist _⟩
        · rw [catchRun_touch_cons g b c d2 ht]
          obtain ⟨h1, h2⟩ := ih d2 (by simp at hlen ⊢; omega)
          exact ⟨(h1.cons c).cons₂ b, ((h2.cons₂ c).cons b)⟩
      · rw [catchRun_notouch g b rest ht]
        obtain ⟨h1, h2⟩ := ih rest (by simp at hlen; omega)
        exact ⟨h1.cons b, h2.cons₂ b⟩

theorem catchRun_length (g : WorldObject) :
    ∀ (n : ℕ) (bs : List Ball), bs.length ≤ n →
      (catchRun g bs).1.length + (catchRun g bs).2.length = bs.length := by
  intro n
  induction n with
  | zero =>
    intro bs hlen
    rcases bs with - | ⟨b, rest⟩
    · rw [catchRun_nil]
      rfl
    · simp at hlen
  | succ n ih =>
    intro bs hlen
    rcases bs with - | ⟨b, rest⟩
    · rw [catchRun_nil]
      rfl
    · by_cases ht : b.toWorldObject.touches g = true
      · rcases rest with - | ⟨c, d2⟩
        · rw [catchRun_touch_nil g b ht]
          rfl
        · rw [catchRun_touch_cons g b c d2 ht]
          have := ih d2 (by simp at hlen ⊢; omega)
          simp at this ⊢
          omega
      · rw [catchRun_notouch g b rest ht]
        have := ih rest (by simp at hlen; omega)
        simp at this ⊢
        omega

theorem catchRun_append_notouch (g : WorldObject) :
    ∀ (pre rest : List Ball), (∀ x ∈ pre, x.toWorldObject.touches g = false) →
      catchRun g (pre ++ rest)
        = ((catchRun g rest).1, pre ++ (catchRun g rest).2) := by
  intro pre
  induction pre with
  | nil => intro rest _; simp
  | cons a pre ih =>
    intro rest hpre
    have ha : ¬ a.toWorldObject.touches g = true := by
      rw [hpre a (List.mem_cons_self a pre)]
      simp
    rw [List.cons_append, catchRun_notouch g a _ ha,
      ih rest (fun x hx => hpre x (List.mem_cons_of_mem a hx))]
    rfl

/-- C1 (amended): running a goal's catch phase (Goal.prototype.catchBalls,
which splices caught balls out of world.balls via World.prototype.removeBall)
removes the first touching ball in the list exactly once and counts it into
exactly that goal's tally exactly once; moreover every removed ball in a pass
is counted exactly once in total (caught plus remaining lengths are
conserved).  Because the loop splices while iterating forward, a touching
ball that immediately follows a caught ball is skipped in the same pass (see
the counterexample), so the per-ball guarantee is stated for a ball that is
preceded only by non-touching balls and occurs once in the list. -/
theorem goal_catch_first_touching_ball (g : Goal) (bs pre post : List Ball) (b : Ball)
    (hsplit : bs = pre ++ b :: post)
    (hpre : ∀ x ∈ pre, x.toWorldObject.touches g.toWorldObject = false)
    (hb : b.toWorldObject.touches g.toWorldObject = true)
    (hcount : bs.count b = 1) :
    (g.catchBalls bs).2.count b = 0
    ∧ (g.catchBalls bs).1.balls.count b = g.balls.count b + 1
    ∧ (g.catchBalls bs).1.countBalls + (g.catchBalls bs).2.length
        = g.countBalls + bs.length := by
  subst hsplit
  rw [catchBalls_eq_catchRun]
  dsimp only
  have hbpre : b ∉ pre := fun hmem => by
    rw [hpre b hmem] at hb
    cases hb
  have hpre0 : pre.count b = 0 := List.count_eq_zero_of_not_mem hbpre
  have hpost0 : post.count b = 0 := by
    rw [List.count_append, hpre0, List.count_cons_self] at hcount
    omega
  rw [catchRun_append_notouch g.toWorldObject pre (b :: post) hpre]
  refine ⟨?_, ?_, ?_⟩
  · rcases post with - | ⟨c, d2⟩
    · rw [catchRun_touch_nil _ _ hb]
      simp [List.count_append, hpre0]
    · rw [catchRun_touch_cons _ _ _ _ hb]
      dsimp only
      have hsub : ((catchRun g.toWorldObject d2).2).Sublist d2 :=
        (catchRun_sublists g.toWorldObject d2.length d2 (le_refl _)).2
      have hle : (c :: (catchRun g.toWorldObject d2).2).count b ≤ (c :: d2).count b :=
        (hsub.cons₂ c).count_le b
      rw [List.count_append, hpre0]
      omega
  · rcases post with - | ⟨c, d2⟩
    · rw [catchRun_touch_nil _ _ hb]
      simp [List.count_append]
    · rw [catchRun_touch_cons _ _ _ _ hb]
      dsimp only
      have hsub1 : ((catchRun g.toWorldObject d2).1).Sublist d2 :=
        (catchRun_sublists g.toWorldObject d2.length d2 (le_refl _)).1
      have hle1 : ((catchRun g.toWorldObject d2).1).count b ≤ d2.count b :=
        hsub1.count_le b
      rw [List.count_cons] at hpost0
      rw [List.count_append, List.count_cons_self]
      omega
  · unfold Goal.countBalls
    have hlen := catchRun_length g.toWorldObject (b :: post).length (b :: post)
      (le_refl _)
    simp only [List.length_append] at hlen ⊢
    simp at hlen ⊢
    omega

section

attribute [local semireducible] Rat.add Rat.sub Rat.mul Rat.inv Rat.ofScientific

/-- C1 counterexample: with two distinct balls both overlapping the goal,
one catch pass removes only the first — the second ball still sits in the
returned world ball list and the goal tally grows by one, not two, because
the splice shifts it into the index the loop has already passed — refuting
the claim that every overlapping ball is removed by the goal-catch phase at
the instant of overlap. -/
theorem goal_catch_skips_second_ball :
    wpBallA.toWorldObject.touches wpGoal.toWorldObject = true
    ∧ wpBallB.toWorldObject.touches wpGoal.toWorldObject = true
    ∧ (wpGoal.catchBalls [wpBallA, wpBallB]).2 = [wpBallB]
    ∧ (wpGoal.catchBalls [wpBallA, wpBallB]).1.countBalls = 1 := by
  rw [catchBalls_eq_catchRun]
  exact ⟨by decide, by decide, by decide, by decide⟩

/-- Witness for goal_catch_first_touching_ball at the concrete goal and
balls, with an empty non-touching prefix. -/
theorem goal_catch_first_touching_ball_witness :
    ((∀ x ∈ ([] : List Ball), x.toWorldObject.touches wpGoal.toWorldObject = false)
      ∧ wpBallA.toWorldObject.touches wpGoal.toWorldObject = true
      ∧ ([wpBallA, wpBallB] : List Ball).count wpBallA = 1)
    ∧ ((wpGoal.catchBalls [wpBallA, wpBallB]).2.count wpBallA = 0
      ∧ (wpGoal.catchBalls [wpBallA, wpBallB]).1.balls.count wpBallA
          = wpGoal.balls.count wpBallA + 1
      ∧ (wpGoal.catchBalls [wpBallA, wpBallB]).1.countBalls
          + (wpGoal.catchBalls [wpBallA, wpBallB]).2.length
        = wpGoal.countBalls + ([wpBallA, wpBallB] : List Ball).length) :=
  ⟨⟨fun x hx => absurd hx (List.not_mem_nil x), by decide, by decide⟩,
    goal_catch_first_touching_ball wpGoal [wpBallA, wpBallB] [] [wpBallB] wpBallA
      rfl (fun x hx => absurd hx (List.not_mem_nil x)) (by decide) (by decide)⟩


/-- C3 counterexample: with the first ball moving downward (dy = -3, in
the world's bottom-left-origin coordinates stated by the spec) and the
paddle's y distance (480) far above the tracking threshold (120),
Computer.prototype.update leaves the paddle's horizontal velocity at 0 —
not at the claimed clamped tracking value clamp(ball.x - paddle.x) = 7 —
because the tracking branch requires dy > 0 (motion toward the top
paddle). -/
theorem computer_downward_no_tracking :
    wpBallDown.dy < 0
    ∧ wpComp.body.y - wpBallDown.y > ((jsRound ((2/10) * (600 : ℚ)) : ℤ) : ℚ)
    ∧ (Computer.update [] 600 wpComp [wpBallDown]).1.body.dx = 0
    ∧ (if |wpBallDown.x - wpComp.body.x| > wpComp.maxDx then
        (if wpBallDown.x - wpComp.body.x > 0 then wpComp.maxDx
          else -1 * wpComp.maxDx)
        else wpBallDown.x - wpComp.body.x) = 7
    ∧ (0 : ℚ) ≠ 7 := by decide

/-- Witness for integer_state_invariant: the concrete ball fixture
satisfies the invariant, and so do its bounce resolutions against the
concrete wall. -/
theorem integer_state_invariant_witness :
    (IntInv wpBallAtWall ∧ ∀ s ∈ [wpWall], IsInt s.dx)
    ∧ (IntInv (wpBallAtWall.horizontalBounce [wpWall])
      ∧ IntInv (wpBallAtWall.verticalBounce [wpWall])) := by
  have hInv : IntInv wpBallAtWall :=
    ⟨⟨108, by decide⟩, ⟨300, by decide⟩, ⟨16, by decide⟩, ⟨16, by decide⟩,
      ⟨-5, by decide⟩, ⟨3, by decide⟩, by decide, by decide⟩
  have hS : ∀ s ∈ [wpWall], IsInt s.dx := by
    intro s hs
    rw [List.mem_singleton] at hs
    subst hs
    exact ⟨0, by decide⟩
  exact ⟨⟨hInv, hS⟩,
    integer_state_invariant.2.2.2.1 wpBallAtWall [wpWall] hInv hS⟩

/-- Witness for computer_tracking_sets_dx at the concrete computer player
and upward-moving ball fixtures. -/
theorem computer_tracking_sets_dx_witness :
    (wpBallUp.dy > 0
      ∧ wpComp.body.y - wpBallUp.y > ((jsRound ((2/10) * (600 : ℚ)) : ℤ) : ℚ))
    ∧ (Computer.update [] 600 wpComp [wpBallUp]).1.body.dx =
        (if |wpBallUp.x - wpComp.body.x| > wpComp.maxDx then
          (if wpBallUp.x - wpComp.body.x > 0 then wpComp.maxDx
            else -1 * wpComp.maxDx)
          else wpBallUp.x - wpComp.body.x) :=
  ⟨⟨by decide, by decide⟩,
    computer_tracking_sets_dx [] 600 wpComp wpBallUp [] (by decide) (by decide)
      (fun s hs => absurd hs (List.not_mem_nil s))⟩

/-- C2 counterexample: constructing a Paddle with both extents 1/2 — each
less than 1 — does not fail; the constructor silently substitutes the
default extents 20 and 10, refuting the claim that any supplied extent
below 1 makes body construction fail. -/
theorem paddle_small_extent_constructs :
    (mkPaddle 0 0 (mkRat 1 2) (mkRat 1 2)).toOption
      = some { kind := .paddle, x := 0, y := 0, xLen := 20, yLen := 10,
               dx := 0, dy := 0, dxLen := 0, dyLen := 0 }
    ∧ mkRat 1 2 < 1 := by decide

/-- Witness for construction_validation: concrete applications of its
parts — a bare WorldObject with xLen 1/2 fails, a Ball with radius 1/2
gets radius 1. -/
theorem construction_validation_witness :
    (mkRat 1 2 < 1)
    ∧ mkWorldObject .plain 0 0 (mkRat 1 2) 5 = .error .xLenBad
    ∧ (∃ b : Ball, mkBall 0 0 (mkRat 1 2) = .ok b ∧ b.radius = 1) :=
  ⟨by decide,
    construction_validation.1 .plain 0 0 (mkRat 1 2) 5 (by decide),
    construction_validation.2.2.2.1 0 0 (mkRat 1 2) (by decide)⟩

/-- Witness for bodies_within_bounds: the concrete ball fixture has
extents 16 ≥ 1 and satisfies the bound property. -/
theorem bodies_within_bounds_witness :
    ((1 : ℚ) ≤ wpBallAtWall.xLen ∧ (1 : ℚ) ≤ wpBallAtWall.yLen)
      ∧ BoundsOk wpBallAtWall :=
  ⟨⟨by decide, by decide⟩,
    bodies_within_bounds.2.1 wpBallAtWall (by decide) (by decide)⟩

/-- Witness for spawn_when_no_balls at the concrete empty world
fixture. -/
theorem spawn_when_no_balls_witness :
    wpWorld0.balls = []
      ∧ (∃ b : Ball, (wpWorld0.ensureBall).balls = [b]
        ∧ b.x = ((wpWorld0.xMiddle : ℤ) : ℚ) ∧ b.y = ((wpWorld0.yMiddle : ℤ) : ℚ)
        ∧ b.dx = 0 ∧ b.dy = 3
        ∧ (1 ≤ wpWorld0.ballRadius →
            b.radius = ((jsRound wpWorld0.ballRadius : ℤ) : ℚ))) :=
  ⟨rfl, spawn_when_no_balls wpWorld0 rfl⟩

/-- Witness for wall_bounce_flips_dx at the concrete wall and ball
fixtures. -/
theorem wall_bounce_flips_dx_witness :
    (wpWall.kind = BodyKind.wall ∧ wpBallAtWall.touches wpWall = true
      ∧ wpWall.x < wpBallAtWall.x ∧ wpBallAtWall.dx = -5)
    ∧ ((wpBallAtWall.horizontalBounce [wpWall]).dx = 5
      ∧ (wpBallAtWall.horizontalBounce [wpWall]).dy = wpBallAtWall.dy) :=
  ⟨⟨rfl, by decide, by decide, by decide⟩,
    wall_bounce_flips_dx wpBallAtWall wpWall rfl (by decide) (by decide) (by decide)⟩

/-- Witness for bounce_moves_away at the concrete wall and ball
fixtures. -/
theorem bounce_moves_away_witness :
    (wpBallAtWall.touches wpWall = true)
    ∧ (((wpBallAtWall.x < wpWall.x ∧ 0 < wpBallAtWall.dx →
          (wpBallAtWall.horizontalBounce [wpWall]).dx < 0)
        ∧ (wpWall.x < wpBallAtWall.x ∧ wpBallAtWall.dx < 0 →
          0 < (wpBallAtWall.horizontalBounce [wpWall]).dx))
      ∧ ((wpBallAtWall.y < wpWall.y ∧ 0 < wpBallAtWall.dy →
          (wpBallAtWall.verticalBounce [wpWall]).dy < 0)
        ∧ (wpWall.y < wpBallAtWall.y ∧ wpBallAtWall.dy < 0 →
          0 < (wpBallAtWall.verticalBounce [wpWall]).dy))) :=
  ⟨by decide, bounce_moves_away wpBallAtWall wpWall (by decide)⟩

end

end Wavepad
